import Mathlib

/-!
Shallow embedding of the ESLint rule `lines-around-directive`
(src/lib/rules/lines-around-directive.js), which enforces or disallows
blank newlines around a leading `use strict` directive.

Line numbers are modelled as integers; locations keep only the line
components actually read by the rule (`loc.start.line`, `loc.end.line`).
The external SourceCode collaborator is modelled by attaching, to each
statement node, the data the rule queries about it: its leading comments
(`node.leadingComments`, possibly absent), its trailing comments
(`sourceCode.getComments(node).trailing`), and the next lexical token
(`sourceCode.getTokenAfter(node)`, possibly null at end of input).

JavaScript property access on `undefined`/`null` throws a TypeError at
run time; fallible steps are therefore embedded in `Except JsError`.
-/

namespace LinesAroundDirective

/-- A source location reduced to the line numbers the rule reads. -/
structure Loc where
  startLine : Int
  endLine : Int
deriving DecidableEq, Repr

/-- A comment node: only its location is consulted. -/
structure Comment where
  loc : Loc
deriving DecidableEq, Repr

/-- A lexical token: only its location is consulted. -/
structure Token where
  loc : Loc
deriving DecidableEq, Repr

/-- The value carried by a `Literal` expression node: a string, or some
non-string literal value (number, boolean, ...). -/
inductive LitValue where
  | str (s : String)
  | nonString
deriving DecidableEq, Repr

/-- The expression inside an expression statement: a `Literal` node or
any other expression kind. -/
inductive ExprNode where
  | literal (value : LitValue)
  | nonLiteral
deriving DecidableEq, Repr

/-- Statement shape: an `ExpressionStatement` wrapping an expression, or
any other statement kind (`VariableDeclaration`, ...). -/
inductive StmtKind where
  | expressionStatement (expression : ExprNode)
  | otherStatement
deriving DecidableEq, Repr

/-- A statement node together with the SourceCode data the rule queries
about it. `leadingComments` is `none` when the parser attached no
`leadingComments` property at all (JS `undefined`). `tokenAfter` is
`none` when no token follows the node (JS `null`). -/
structure Stmt where
  kind : StmtKind
  loc : Loc
  leadingComments : Option (List Comment)
  trailingComments : List Comment
  tokenAfter : Option Token
deriving DecidableEq, Repr

/-- Body of an arrow function: a block statement, or an expression body
(implicit return). -/
inductive ArrowBody where
  | blockStatement (body : List Stmt)
  | expressionBody
deriving DecidableEq, Repr

/-- The four node types the rule registers handlers for. For
`FunctionDeclaration` and `FunctionExpression` the parser guarantees a
`BlockStatement` body, so they carry the statement list directly; an
arrow function may have either body shape. -/
inductive ScopeNode where
  | program (body : List Stmt)
  | functionDeclaration (body : List Stmt)
  | functionExpression (body : List Stmt)
  | arrowFunctionExpression (body : ArrowBody)
deriving DecidableEq, Repr

/-- One of the two configuration strings, "always" or "never". -/
inductive ModeStr where
  | always
  | never
deriving DecidableEq, Repr

/-- The resolved rule mode: one policy for "before", one for "after". -/
structure Mode where
  before : ModeStr
  after : ModeStr
deriving DecidableEq, Repr

/-- The two configuration shapes the schema admits: a bare string, or an
object with both `before` and `after` (the schema requires
`minProperties: 2` with no additional properties). -/
inductive Config where
  | strConfig (mode : ModeStr)
  | objConfig (before after : ModeStr)
deriving DecidableEq, Repr

/-- `generateMode`: a bare string fills both fields; an object copies
its `before` and `after` fields. -/
def generateMode : Config → Mode
  | .strConfig m => { before := m, after := m }
  | .objConfig b a => { before := b, after := a }

/-- Run-time failure: reading a property of `undefined`/`null`. -/
inductive JsError where
  | typeError
deriving DecidableEq, Repr

/-- `isNodeUseStrictDirective`: the node is an `ExpressionStatement`
whose expression is a `Literal` with value `"use strict"`. -/
def isNodeUseStrictDirective (node : Stmt) : Bool :=
  match node.kind with
  | .expressionStatement (.literal (.str s)) => s == "use strict"
  | _ => false

/-- `getUseStrictDirective`: reads `body[0]` and tests it. When the body
is empty, `body[0]` is `undefined` and `isNodeUseStrictDirective` reads
`.type` of `undefined`, throwing a TypeError. -/
def getUseStrictDirective (body : List Stmt) : Except JsError (Option Stmt) :=
  match body.head? with
  | none => .error .typeError
  | some firstStatement =>
      .ok (if isNodeUseStrictDirective firstStatement then some firstStatement else none)

/-- `hasNewlineBefore`: compares the directive's start line with the end
line of the last element of `comments`. On an empty list,
`comments[comments.length - 1]` is `undefined` and reading `.loc`
throws. -/
def hasNewlineBefore (node : Stmt) (comments : List Comment) : Except JsError Bool :=
  match comments.getLast? with
  | none => .error .typeError
  | some comment => .ok (decide (2 ≤ node.loc.startLine - comment.loc.endLine))

/-- `hasNewlineAfter`: measures against the first trailing comment when
one exists, otherwise against the next lexical token. When neither
exists, `tokenAfter` is `null` and reading `.loc` throws. -/
def hasNewlineAfter (node : Stmt) : Except JsError Bool :=
  match node.trailingComments with
  | c :: _ => .ok (decide (2 ≤ c.loc.startLine - node.loc.endLine))
  | [] =>
      match node.tokenAfter with
      | some t => .ok (decide (2 ≤ t.loc.startLine - node.loc.endLine))
      | none => .error .typeError

/-- A reported diagnostic: the anchor node, the rendered message, and
the two `data` fields that were substituted into the template. -/
structure Diagnostic where
  node : Stmt
  message : String
  expected : Bool
  location : String
deriving DecidableEq, Repr

/-- `reportError`: builds the report for one side. The message template
is "\x7b\x7bexpected\x7d\x7d newline \x7b\x7blocation\x7d\x7d \x27use strict\x27 directive."
with `expected` rendered as "Expected"/"Unexpected". -/
def reportError (node : Stmt) (location : String) (expected : Bool) : Diagnostic :=
  { node := node
    message := (if expected then "Expected" else "Unexpected") ++ " newline " ++
      location ++ " \x27use strict\x27 directive."
    expected := expected
    location := location }

/-- The statement list the rule inspects: `node.body` for a Program,
`node.body.body` for the function forms. (For an expression-bodied
arrow this is never consulted: `checkDirectives` returns first.) -/
def scopeBody : ScopeNode → List Stmt
  | .program body => body
  | .functionDeclaration body => body
  | .functionExpression body => body
  | .arrowFunctionExpression (.blockStatement body) => body
  | .arrowFunctionExpression .expressionBody => []

/-- The skip test at the top of `checkDirectives`:
`node.type === "ArrowFunctionExpression" && node.body.type !== "BlockStatement"`. -/
def isImplicitReturnArrow : ScopeNode → Bool
  | .arrowFunctionExpression .expressionBody => true
  | _ => false

/-- The "before" block of `checkDirectives` (guard
`leadingComments && leadingComments.length`, then the two policy
comparisons against `hasNewlineBefore`). -/
def beforeChecks (mode : Mode) (directive : Stmt) : Except JsError (List Diagnostic) :=
  match directive.leadingComments with
  | some (c :: cs) =>
      match hasNewlineBefore directive (c :: cs) with
      | .error e => .error e
      | .ok hnb =>
          .ok ((if mode.before == ModeStr.always && !hnb then
                  [reportError directive "before" true] else []) ++
               (if mode.before == ModeStr.never && hnb then
                  [reportError directive "before" false] else []))
  | _ => .ok []

/-- The "after" block of `checkDirectives` (the two policy comparisons
against `hasNewlineAfter`). -/
def afterChecks (mode : Mode) (directive : Stmt) : Except JsError (List Diagnostic) :=
  match hasNewlineAfter directive with
  | .error e => .error e
  | .ok hna =>
      .ok ((if mode.after == ModeStr.always && !hna then
              [reportError directive "after" true] else []) ++
           (if mode.after == ModeStr.never && hna then
              [reportError directive "after" false] else []))

/-- `checkDirectives`: skip implicit-return arrows, locate the
directive, run the before checks, stop if the directive is the last
statement, run the after checks. The source's last-statement test is
`directive === body[body.length - 1]` — reference equality; since the
directive is `body[0]` and the parser never stores one statement object
at two body positions, it holds exactly when the body has length 1. -/
def checkDirectives (mode : Mode) (node : ScopeNode) : Except JsError (List Diagnostic) :=
  if isImplicitReturnArrow node then .ok []
  else
    match getUseStrictDirective (scopeBody node) with
    | .error e => .error e
    | .ok none => .ok []
    | .ok (some directive) =>
        match beforeChecks mode directive with
        | .error e => .error e
        | .ok beforeReports =>
            if (scopeBody node).length == 1 then .ok beforeReports
            else
              match afterChecks mode directive with
              | .error e => .error e
              | .ok afterReports => .ok (beforeReports ++ afterReports)

/-- `create`: `config = context.options[0] || "always"`, then
`mode = generateMode(config)`, then check the scope. -/
def create (options : Option Config) (node : ScopeNode) : Except JsError (List Diagnostic) :=
  let config := options.getD (Config.strConfig ModeStr.always)
  let mode := generateMode config
  checkDirectives mode node

/-! ### Concrete fixtures used for sanity checks and witnesses -/

/-- A line comment occupying line `n`. -/
def commentLine (n : Int) : Comment := { loc := { startLine := n, endLine := n } }

/-- A token occupying line `n`. -/
def tokenLine (n : Int) : Token := { loc := { startLine := n, endLine := n } }

/-- A non-directive statement (e.g. `var foo;`) on line `n`, no comments. -/
def varStmtLine (n : Int) : Stmt :=
  { kind := .otherStatement
    loc := { startLine := n, endLine := n }
    leadingComments := none
    trailingComments := []
    tokenAfter := none }

/-- `// comment` on line 1, `'use strict';` on line 2, next token on
line 3: no blank line on either side. -/
def directiveAdjacent : Stmt :=
  { kind := .expressionStatement (.literal (.str "use strict"))
    loc := { startLine := 2, endLine := 2 }
    leadingComments := some [commentLine 1]
    trailingComments := []
    tokenAfter := some (tokenLine 3) }

/-- `'use strict';` on line 1 with no leading comments, next token on
line 3: a blank line after, nothing to measure before. -/
def directiveTopSpaced : Stmt :=
  { kind := .expressionStatement (.literal (.str "use strict"))
    loc := { startLine := 1, endLine := 1 }
    leadingComments := none
    trailingComments := []
    tokenAfter := some (tokenLine 3) }

/-- `// comment` on line 1, blank line, `'use strict';` on line 3, sole
statement of its body. -/
def directiveSoleSpaced : Stmt :=
  { kind := .expressionStatement (.literal (.str "use strict"))
    loc := { startLine := 3, endLine := 3 }
    leadingComments := some [commentLine 1]
    trailingComments := []
    tokenAfter := some (tokenLine 4) }

/-- The resolved mode requiring blank lines on both sides. -/
def modeAlways : Mode := { before := ModeStr.always, after := ModeStr.always }

/-- The resolved mode forbidding blank lines on both sides. -/
def modeNever : Mode := { before := ModeStr.never, after := ModeStr.never }

example : checkDirectives modeAlways (ScopeNode.program [directiveAdjacent, varStmtLine 3]) =
    .ok [reportError directiveAdjacent "before" true,
         reportError directiveAdjacent "after" true] := by rfl

example : checkDirectives modeAlways (ScopeNode.program [directiveTopSpaced, varStmtLine 3]) =
    .ok [] := by rfl

example : checkDirectives modeNever (ScopeNode.program [directiveSoleSpaced]) =
    .ok [reportError directiveSoleSpaced "before" false] := by rfl

example : checkDirectives modeAlways (ScopeNode.program []) = .error .typeError := by rfl

/-! ### Helper lemmas about the before/after blocks and the checker -/

/-- The two policy comparisons of one side are mutually exclusive, so
they contribute at most one diagnostic, and both carry the side's
location. -/
theorem sideReports_spec (m : ModeStr) (b : Bool) (x y : Diagnostic) (loc : String)
    (hx : x.location = loc) (hy : y.location = loc) :
    (((if m == ModeStr.always && !b then [x] else []) ++
      (if m == ModeStr.never && b then [y] else [])).length ≤ 1) ∧
    ∀ d ∈ ((if m == ModeStr.always && !b then [x] else []) ++
      (if m == ModeStr.never && b then [y] else [])), d.location = loc := by
  cases m <;> cases b <;> simp [hx, hy]

/-- A successful before block yields at most one diagnostic, and every
diagnostic it yields carries location "before". -/
theorem beforeChecks_ok_spec (mode : Mode) (directive : Stmt) (l : List Diagnostic)
    (h : beforeChecks mode directive = .ok l) :
    l.length ≤ 1 ∧ ∀ d ∈ l, d.location = "before" := by
  unfold beforeChecks at h
  cases hlc : directive.leadingComments with
  | none =>
      rw [hlc] at h
      simp only at h
      obtain rfl : ([] : List Diagnostic) = l := Except.ok.inj h
      simp
  | some cs =>
      cases cs with
      | nil =>
          rw [hlc] at h
          simp only at h
          obtain rfl : ([] : List Diagnostic) = l := Except.ok.inj h
          simp
      | cons c cs' =>
          rw [hlc] at h
          simp only at h
          cases hnb : hasNewlineBefore directive (c :: cs') with
          | error e =>
              rw [hnb] at h
              simp only at h
              exact absurd h (by simp)
          | ok b =>
              rw [hnb] at h
              simp only at h
              obtain rfl := Except.ok.inj h
              exact sideReports_spec mode.before b _ _ _ rfl rfl

/-- A successful after block yields at most one diagnostic, and every
diagnostic it yields carries location "after". -/
theorem afterChecks_ok_spec (mode : Mode) (directive : Stmt) (l : List Diagnostic)
    (h : afterChecks mode directive = .ok l) :
    l.length ≤ 1 ∧ ∀ d ∈ l, d.location = "after" := by
  unfold afterChecks at h
  cases hna : hasNewlineAfter directive with
  | error e =>
      rw [hna] at h
      simp only at h
      exact absurd h (by simp)
  | ok b =>
      rw [hna] at h
      simp only at h
      obtain rfl := Except.ok.inj h
      exact sideReports_spec mode.after b _ _ _ rfl rfl

/-- When the directive has no leading comments (absent or empty list),
the before block reports nothing. -/
theorem beforeChecks_no_leading (mode : Mode) (directive : Stmt)
    (hlc : directive.leadingComments = none ∨ directive.leadingComments = some []) :
    beforeChecks mode directive = .ok [] := by
  rcases hlc with h | h <;> simp [beforeChecks, h]

/-- Shape of every successful checker run: either nothing was reported,
or a directive was located and the reports are the before block's
output, followed by the after block's output when the directive is not
the body's only statement. -/
theorem checkDirectives_ok_shape (mode : Mode) (node : ScopeNode) (ds : List Diagnostic)
    (h : checkDirectives mode node = .ok ds) :
    ds = [] ∨
    ∃ directive bl,
      getUseStrictDirective (scopeBody node) = .ok (some directive) ∧
      beforeChecks mode directive = .ok bl ∧
      ((ds = bl ∧ (scopeBody node).length = 1) ∨
       ∃ al, afterChecks mode directive = .ok al ∧ ds = bl ++ al ∧
         (scopeBody node).length ≠ 1) := by
  unfold checkDirectives at h
  by_cases ha : isImplicitReturnArrow node
  · rw [if_pos ha] at h
    exact Or.inl (Except.ok.inj h).symm
  · rw [if_neg ha] at h
    cases hg : getUseStrictDirective (scopeBody node) with
    | error e =>
        rw [hg] at h
        simp only at h
        exact absurd h (by simp)
    | ok o =>
        rw [hg] at h
        cases o with
        | none =>
            simp only at h
            exact Or.inl (Except.ok.inj h).symm
        | some directive =>
            simp only at h
            cases hbc : beforeChecks mode directive with
            | error e =>
                rw [hbc] at h
                simp only at h
                exact absurd h (by simp)
            | ok bl =>
                rw [hbc] at h
                simp only at h
                by_cases hlen : ((scopeBody node).length == 1) = true
                · rw [if_pos hlen] at h
                  refine Or.inr ⟨directive, bl, rfl, hbc, Or.inl ⟨(Except.ok.inj h).symm, ?_⟩⟩
                  simpa using hlen
                · rw [if_neg hlen] at h
                  cases hac : afterChecks mode directive with
                  | error e =>
                      rw [hac] at h
                      simp only at h
                      exact absurd h (by simp)
                  | ok al =>
                      rw [hac] at h
                      simp only at h
                      refine Or.inr ⟨directive, bl, rfl, hbc,
                        Or.inr ⟨al, hac, (Except.ok.inj h).symm, ?_⟩⟩
                      simpa using hlen

/-! ### Claim theorems -/

/-- C1: contrary to the claim that every Scope AST (including one with
an empty statement body) runs to completion with a benign skip, the
check faults on an empty body: `body[0]` is `undefined` and
`isNodeUseStrictDirective` reads `.type` of it, raising a TypeError —
for every resolved mode. -/
theorem checkDirectives_empty_body_typeError (mode : Mode) :
    checkDirectives mode (ScopeNode.program []) = .error JsError.typeError := rfl

/-- C2: for a directive with at least one leading comment (last leading
comment `c`), "has blank line before" holds iff the directive's start
line minus `c`'s end line is at least 2, and a difference of exactly 1
never counts as a blank line. -/
theorem hasNewlineBefore_iff_gap_ge_two (node : Stmt) (comments : List Comment) (c : Comment)
    (h : comments.getLast? = some c) :
    (hasNewlineBefore node comments = .ok true ↔
      2 ≤ node.loc.startLine - c.loc.endLine) ∧
    (node.loc.startLine - c.loc.endLine = 1 →
      hasNewlineBefore node comments = .ok false) := by
  unfold hasNewlineBefore
  rw [h]
  refine ⟨?_, ?_⟩
  · simp
  · intro h1
    simp [h1]

/-- Witness for C2: a directive on line 3 after a comment ending on
line 1 has a blank line before it. -/
theorem hasNewlineBefore_iff_gap_ge_two_witness :
    hasNewlineBefore directiveSoleSpaced [commentLine 1] = .ok true :=
  (hasNewlineBefore_iff_gap_ge_two directiveSoleSpaced [commentLine 1]
    (commentLine 1) rfl).1.mpr (by decide)

/-- C3: "has blank line after" is measured against the first trailing
comment when the trailing-comment list is non-empty, otherwise against
the next lexical token, and holds iff that element's start line minus
the directive's end line is at least 2. -/
theorem hasNewlineAfter_iff_gap_ge_two (node : Stmt) :
    hasNewlineAfter node = .ok true ↔
      ((∃ c cs, node.trailingComments = c :: cs ∧
          2 ≤ c.loc.startLine - node.loc.endLine) ∨
       (node.trailingComments = [] ∧
        ∃ t, node.tokenAfter = some t ∧
          2 ≤ t.loc.startLine - node.loc.endLine)) := by
  unfold hasNewlineAfter
  cases htc : node.trailingComments with
  | nil =>
      cases hta : node.tokenAfter with
      | none => simp
      | some t => simp
  | cons c cs => simp

/-- C8: configuring the checker with a bare mode `m` is the same as
configuring it with the structured policy putting `m` on both sides,
for every scope and both modes. -/
theorem bare_mode_eq_structured_mode (m : ModeStr) (node : ScopeNode) :
    checkDirectives (generateMode (Config.strConfig m)) node =
      checkDirectives (generateMode (Config.objConfig m m)) node := rfl

/-- C9: running the rule with no configuration produces exactly the
diagnostics of the bare mode "always", for every scope. -/
theorem create_default_eq_always (node : ScopeNode) :
    create none node = create (some (Config.strConfig ModeStr.always)) node := rfl

/-- C4: for a checkable directive with both sides live (leading
comments present; a statement follows), a diagnostic is emitted for a
side iff that side's policy is `always` and no blank line is present,
or `never` and one is; each diagnostic is anchored at the directive
node and carries the rendered "Expected/Unexpected newline
before/after" message, and the two sides are independent — the report
list is the concatenation of the two sides' reports, so both may
fire. -/
theorem checkDirectives_reports_iff
    (mode : Mode) (node : ScopeNode) (directive s2 : Stmt) (rest : List Stmt)
    (c : Comment) (cs : List Comment) (hnb hna : Bool)
    (harrow : isImplicitReturnArrow node = false)
    (hbody : scopeBody node = directive :: s2 :: rest)
    (hdir : isNodeUseStrictDirective directive = true)
    (hlc : directive.leadingComments = some (c :: cs))
    (hb : hasNewlineBefore directive (c :: cs) = .ok hnb)
    (ha : hasNewlineAfter directive = .ok hna) :
    checkDirectives mode node = .ok (
      (if mode.before = ModeStr.always ∧ hnb = false then
         [reportError directive "before" true] else []) ++
      (if mode.before = ModeStr.never ∧ hnb = true then
         [reportError directive "before" false] else []) ++
      ((if mode.after = ModeStr.always ∧ hna = false then
         [reportError directive "after" true] else []) ++
       (if mode.after = ModeStr.never ∧ hna = true then
         [reportError directive "after" false] else []))) ∧
    ∀ l e, reportError directive l e =
      { node := directive
        message := (if e then "Expected" else "Unexpected") ++ " newline " ++ l ++
          " \x27use strict\x27 directive."
        expected := e
        location := l } := by
  refine ⟨?_, fun l e => rfl⟩
  have hg : getUseStrictDirective (scopeBody node) = .ok (some directive) := by
    rw [hbody]
    simp [getUseStrictDirective, hdir]
  have hlen : ((scopeBody node).length == 1) = false := by
    rw [hbody]
    simp only [List.length_cons, beq_eq_false_iff_ne]
    omega
  obtain ⟨mb, ma⟩ := mode
  cases mb <;> cases ma <;> cases hnb <;> cases hna <;>
    simp [checkDirectives, harrow, hg, beforeChecks, hlc, hb, afterChecks, ha, hlen]

/-- Witness for C4: the fully adjacent directive under the "always"
policy fires both the "before" and the "after" diagnostic at once. -/
theorem checkDirectives_reports_iff_witness :
    checkDirectives modeAlways (ScopeNode.program [directiveAdjacent, varStmtLine 3]) =
      .ok [reportError directiveAdjacent "before" true,
           reportError directiveAdjacent "after" true] := by
  have h := (checkDirectives_reports_iff modeAlways
      (ScopeNode.program [directiveAdjacent, varStmtLine 3])
      directiveAdjacent (varStmtLine 3) [] (commentLine 1) [] false false
      rfl rfl rfl rfl rfl rfl).1
  simpa [modeAlways] using h

/-- C5: when the located directive's leading-comment list is absent or
empty, no "before" diagnostic is ever produced, for any policy. -/
theorem no_before_diagnostic_without_leading_comments
    (mode : Mode) (node : ScopeNode) (directive : Stmt) (ds : List Diagnostic)
    (hdir : getUseStrictDirective (scopeBody node) = .ok (some directive))
    (hlc : directive.leadingComments = none ∨ directive.leadingComments = some [])
    (hrun : checkDirectives mode node = .ok ds) :
    ∀ d ∈ ds, d.location ≠ "before" := by
  intro d hd
  rcases checkDirectives_ok_shape mode node ds hrun with rfl | ⟨dir2, bl, hg, hbc, hrest⟩
  · simp at hd
  · obtain rfl : directive = dir2 :=
      Option.some.inj (Except.ok.inj (hdir.symm.trans hg))
    have hbl : ([] : List Diagnostic) = bl :=
      Except.ok.inj ((beforeChecks_no_leading mode directive hlc).symm.trans hbc)
    rcases hrest with ⟨rfl, _⟩ | ⟨al, hac, rfl, _⟩
    · rw [← hbl] at hd
      simp at hd
    · rw [← hbl] at hd
      have : d.location = "after" :=
        (afterChecks_ok_spec mode directive al hac).2 d (by simpa using hd)
      rw [this]
      decide

/-- Witness for C5: the top-of-file directive with no leading comments
and a blank line after, under the "never" policy, yields only the
"after" diagnostic, and its location is not "before". -/
theorem no_before_diagnostic_without_leading_comments_witness :
    (reportError directiveTopSpaced "after" false).location ≠ "before" :=
  no_before_diagnostic_without_leading_comments modeNever
    (ScopeNode.program [directiveTopSpaced, varStmtLine 3]) directiveTopSpaced
    [reportError directiveTopSpaced "after" false] rfl (Or.inl rfl) rfl
    (reportError directiveTopSpaced "after" false) (by simp)

/-- C6: when the directive is the last (sole) statement of its body, no
"after" diagnostic is ever produced, for any policy. -/
theorem no_after_diagnostic_when_directive_last
    (mode : Mode) (node : ScopeNode) (stmt : Stmt) (ds : List Diagnostic)
    (hbody : scopeBody node = [stmt])
    (hrun : checkDirectives mode node = .ok ds) :
    ∀ d ∈ ds, d.location ≠ "after" := by
  intro d hd
  rcases checkDirectives_ok_shape mode node ds hrun with rfl | ⟨dir, bl, hg, hbc, hrest⟩
  · simp at hd
  · rcases hrest with ⟨rfl, _⟩ | ⟨al, hac, rfl, hlen⟩
    · have : d.location = "before" := (beforeChecks_ok_spec mode dir _ hbc).2 d hd
      rw [this]
      decide
    · exact absurd (show (scopeBody node).length = 1 by rw [hbody]; rfl) hlen

/-- Witness for C6: a sole directive preceded by a spaced comment,
under the "never" policy, yields only the "before" diagnostic, and its
location is not "after". -/
theorem no_after_diagnostic_when_directive_last_witness :
    (reportError directiveSoleSpaced "before" false).location ≠ "after" :=
  no_after_diagnostic_when_directive_last modeNever
    (ScopeNode.program [directiveSoleSpaced]) directiveSoleSpaced
    [reportError directiveSoleSpaced "before" false] rfl rfl
    (reportError directiveSoleSpaced "before" false) (by simp)

/-- C7: an implicit-return arrow scope, or a scope whose body's first
statement is not the `use strict` directive, yields zero diagnostics
for every policy; and the directive locator only ever examines position
0 of the body. -/
theorem skip_rules_yield_no_diagnostics (mode : Mode) (node : ScopeNode)
    (h : isImplicitReturnArrow node = true ∨
         ∃ s, (scopeBody node).head? = some s ∧ isNodeUseStrictDirective s = false) :
    checkDirectives mode node = .ok [] ∧
    ∀ b1 b2 : List Stmt, b1.head? = b2.head? →
      getUseStrictDirective b1 = getUseStrictDirective b2 := by
  constructor
  · rcases h with h | ⟨s, hs, hns⟩
    · simp [checkDirectives, h]
    · by_cases ha : isImplicitReturnArrow node = true
      · simp [checkDirectives, ha]
      · have hg : getUseStrictDirective (scopeBody node) = .ok none := by
          simp [getUseStrictDirective, hs, hns]
        simp [checkDirectives, ha, hg]
  · intro b1 b2 hb
    unfold getUseStrictDirective
    rw [hb]

/-- Witness for C7: a program starting with `var foo;` yields zero
diagnostics under the "always" policy. -/
theorem skip_rules_yield_no_diagnostics_witness :
    checkDirectives modeAlways (ScopeNode.program [varStmtLine 1]) = .ok [] :=
  (skip_rules_yield_no_diagnostics modeAlways (ScopeNode.program [varStmtLine 1])
    (Or.inr ⟨varStmtLine 1, rfl, rfl⟩)).1

/-- C10: every successful run reports at most one diagnostic per side
(never both an "Expected" and an "Unexpected" on the same side) and at
most two diagnostics in total. -/
theorem at_most_one_diagnostic_per_side
    (mode : Mode) (node : ScopeNode) (ds : List Diagnostic)
    (h : checkDirectives mode node = .ok ds) :
    (ds.filter (fun d => d.location == "before")).length ≤ 1 ∧
    (ds.filter (fun d => d.location == "after")).length ≤ 1 ∧
    ds.length ≤ 2 := by
  rcases checkDirectives_ok_shape mode node ds h with rfl | ⟨dir, bl, hg, hbc, hrest⟩
  · simp
  · obtain ⟨hbl1, hblloc⟩ := beforeChecks_ok_spec mode dir bl hbc
    have hblafter : bl.filter (fun d => d.location == "after") = [] := by
      rw [List.filter_eq_nil_iff]
      intro d hd
      have := hblloc d hd
      simp [this]
    rcases hrest with ⟨rfl, _⟩ | ⟨al, hac, rfl, _⟩
    · refine ⟨le_trans (List.length_filter_le _ _) hbl1, ?_, le_trans hbl1 (by norm_num)⟩
      rw [hblafter]
      simp
    · obtain ⟨hal1, halloc⟩ := afterChecks_ok_spec mode dir al hac
      have halbefore : al.filter (fun d => d.location == "before") = [] := by
        rw [List.filter_eq_nil_iff]
        intro d hd
        have := halloc d hd
        simp [this]
      refine ⟨?_, ?_, ?_⟩
      · rw [List.filter_append, halbefore, List.append_nil]
        exact le_trans (List.length_filter_le _ _) hbl1
      · rw [List.filter_append, hblafter, List.nil_append]
        exact le_trans (List.length_filter_le _ _) hal1
      · rw [List.length_append]
        omega

/-- Witness for C10: the fully adjacent directive under the "always"
policy yields one report per side — two in total, one "before", one
"after". -/
theorem at_most_one_diagnostic_per_side_witness :
    (([reportError directiveAdjacent "before" true,
       reportError directiveAdjacent "after" true].filter
         (fun d => d.location == "before")).length ≤ 1) ∧
    (([reportError directiveAdjacent "before" true,
       reportError directiveAdjacent "after" true].filter
         (fun d => d.location == "after")).length ≤ 1) ∧
    ([reportError directiveAdjacent "before" true,
      reportError directiveAdjacent "after" true].length ≤ 2) :=
  at_most_one_diagnostic_per_side modeAlways
    (ScopeNode.program [directiveAdjacent, varStmtLine 3])
    [reportError directiveAdjacent "before" true,
     reportError directiveAdjacent "after" true] rfl

end LinesAroundDirective
